import Mathlib

/-!
# osin-couchbase-storage: the storage adapter over a key-value bucket

A shallow embedding of `storage.go`.  The adapter keeps OAuth2 clients,
authorization codes, access tokens and refresh tokens in one Couchbase bucket.
Every adapter method is one call (two for `SaveAccess`) of the bucket's
`Upsert`, `Get` or `Remove`.

The bucket itself belongs to the driver, not to this repository.  It is
modelled as a map from keys to stored documents, together with

* a script of outcomes the store will give to the coming calls (so that a
  failing call can be expressed), and
* the list of calls received so far (so that what the adapter passes to the
  driver can be observed).

Go strings are Lean strings, `int32` fields are integers, pointers and
interface values that may be nil are options.
-/

set_option linter.dupNamespace false

namespace OsinCouchbase

/-! ## Data model (the records of the OAuth2 library) -/

/-- An instant (`time.Time`), as an integer count; the zero value is `0`. -/
abbrev Time := Int

/-- A value of type `interface{}` carried as user data: nil, or a document. -/
abbrev UserData := Option String

/-- The record `osin.DefaultClient`. -/
structure DefaultClient where
  Id : String
  Secret : String
  RedirectUri : String
  UserData : UserData
deriving DecidableEq

/-- The method `GetId` of a client. -/
def DefaultClient.GetId (c : DefaultClient) : String := c.Id

/-- The record `osin.AuthorizeData`; `Client` is an interface value. -/
structure AuthorizeData where
  Client : Option DefaultClient
  Code : String
  ExpiresIn : Int
  Scope : String
  RedirectUri : String
  State : String
  CreatedAt : Time
  UserData : UserData
deriving DecidableEq

/-- The record `osin.AccessData`; `AuthorizeData` and `AccessData` are
pointers, the latter to the previous access data of the rotation chain. -/
structure AccessData where
  Client : Option DefaultClient
  AuthorizeData : Option AuthorizeData
  AccessData : Option AccessData
  AccessToken : String
  RefreshToken : String
  ExpiresIn : Int
  Scope : String
  RedirectUri : String
  CreatedAt : Time
  UserData : UserData

/-- The range of the `int32` field `ExpiresIn`. -/
def isInt32 (x : Int) : Prop := -2147483648 ≤ x ∧ x < 2147483648

instance (x : Int) : Decidable (isInt32 x) := by unfold isInt32; infer_instance

/-- The conversion `uint32(x)` of an `int32` value: reduction modulo `2^32`. -/
def uint32 (x : Int) : Nat := (x % 4294967296).toNat

/-- The zero value `osin.DefaultClient{}`. -/
def DefaultClient.zero : DefaultClient :=
  { Id := "", Secret := "", RedirectUri := "", UserData := none }

/-- The zero value `osin.AuthorizeData{}`. -/
def AuthorizeData.zero : AuthorizeData :=
  { Client := none, Code := "", ExpiresIn := 0, Scope := "", RedirectUri := "",
    State := "", CreatedAt := 0, UserData := none }

/-- The zero value `osin.AccessData{}`. -/
def AccessData.zero : OsinCouchbase.AccessData :=
  { Client := none, AuthorizeData := none, AccessData := none, AccessToken := "",
    RefreshToken := "", ExpiresIn := 0, Scope := "", RedirectUri := "",
    CreatedAt := 0, UserData := none }

/-! ## Errors -/

/-- Go `error` values the adapter can return.  `New text` is the value of
`errors.New(text)`, whose message is `text`; `ErrKeyNotFound` is the driver's
`gocbcore.ErrKeyNotFound`; `UnmarshalTypeError` is the error of the JSON
decoder when a document value does not fit the Go value it is decoded into;
`driver text` is any other error of the driver. -/
inductive GoError where
  | New (text : String)
  | ErrKeyNotFound
  | UnmarshalTypeError
  | driver (text : String)
deriving DecidableEq

/-! ## The bucket -/

/-- A stored document: the encoding of one of the three records. -/
inductive Doc where
  | client (c : DefaultClient)
  | authorize (a : AuthorizeData)
  | access (d : AccessData)

/-- What the bucket keeps under a key: the document and the expiry it was
written with. -/
structure Entry where
  doc : Doc
  expiry : Nat

/-- A call received by the bucket. -/
inductive Call where
  | upsert (key : String) (value : Doc) (expiry : Nat)
  | get (key : String)
  | remove (key : String) (cas : Nat)

/-- The bucket `*gocb.Bucket`: its documents, the outcomes scripted for the
coming calls (`some e`: the call fails with `e` and has no effect; `none` or
an exhausted script: the call is served), and the calls received so far. -/
structure Bucket where
  docs : String → Option Entry
  faults : List (Option GoError)
  log : List Call

/-- The outcome scripted for the next call. -/
def Bucket.nextFault (b : Bucket) : Option GoError :=
  match b.faults with
  | [] => none
  | f :: _ => f

/-- The bucket once it has received `c`: the call is logged and one scripted
outcome is consumed. -/
def Bucket.received (b : Bucket) (c : Call) : Bucket :=
  { b with faults := b.faults.tail, log := b.log ++ [c] }

/-! ### Decoding a document into a Go value

`Get` hands the stored JSON document to the decoder together with the value
the caller allocated.  The decoder fills that value in place:

* a field of interface type `osin.Client` is filled through the pointer the
  interface already holds; when the interface is nil there is nothing to fill,
  the decoder skips the field and reports `UnmarshalTypeError`;
* a field of pointer type is filled through the pointer, which the decoder
  allocates (as a zero record) when it is nil;
* a JSON `null` sets an interface or a pointer to nil;
* the decoder goes on after an error and returns the first one.
-/

/-- The first of two errors. -/
def firstError : Option GoError → Option GoError → Option GoError
  | some e, _ => some e
  | none, e => e

/-- Decoding of a client value into a field of type `osin.Client`. -/
def decodeClient (value target : Option DefaultClient) :
    Option DefaultClient × Option GoError :=
  match value, target with
  | none, _ => (none, none)
  | some c, some _ => (some c, none)
  | some _, none => (none, some .UnmarshalTypeError)

/-- Decoding of an authorize-data object into an `AuthorizeData` record. -/
def decodeAuthorizeData (value target : AuthorizeData) : AuthorizeData × Option GoError :=
  let c := decodeClient value.Client target.Client
  ({ value with Client := c.1 }, c.2)

/-- Decoding of an authorize-data value into a field of type `*AuthorizeData`. -/
def decodeAuthorizePtr (value target : Option AuthorizeData) :
    Option AuthorizeData × Option GoError :=
  match value with
  | none => (none, none)
  | some a =>
    let r := decodeAuthorizeData a (target.getD AuthorizeData.zero)
    (some r.1, r.2)

/-- Decoding of an access-data object into an `AccessData` record; the
previous access data is decoded into the record behind the target's
`AccessData` pointer, a zero record when that pointer is nil. -/
def decodeAccessData : AccessData → AccessData → AccessData × Option GoError
  | ⟨client, authorize, prev, token, refresh, expires, scope, uri, created, user⟩, target =>
    let c := decodeClient client target.Client
    let a := decodeAuthorizePtr authorize target.AuthorizeData
    let p : Option AccessData × Option GoError :=
      match prev with
      | none => (none, none)
      | some q =>
        let r := decodeAccessData q (target.AccessData.getD AccessData.zero)
        (some r.1, r.2)
    (⟨c.1, a.1, p.1, token, refresh, expires, scope, uri, created, user⟩,
     firstError c.2 (firstError a.2 p.2))

/-- The driver's transcoding of a record type: `encode` is what `Upsert`
stores for a value, `decode doc target` is what `Get` leaves behind the value
pointer `target` once it has read `doc`, and the decoder's error. -/
class Transcodable (α : Type) where
  encode : α → Doc
  decode : Doc → α → α × Option GoError

/-- Transcoding of clients.  A client document overwrites the four fields of
the target; a document of another record fills the fields it shares by name
(`RedirectUri`, `UserData`) and leaves the others as the target has them. -/
instance : Transcodable DefaultClient where
  encode := Doc.client
  decode doc target :=
    match doc with
    | .client c => (c, none)
    | .authorize a =>
      ({ target with RedirectUri := a.RedirectUri, UserData := a.UserData }, none)
    | .access d =>
      ({ target with RedirectUri := d.RedirectUri, UserData := d.UserData }, none)

/-- Transcoding of authorize data, with the same rule for documents of another
record. -/
instance : Transcodable AuthorizeData where
  encode := Doc.authorize
  decode doc target :=
    match doc with
    | .authorize a => decodeAuthorizeData a target
    | .client c =>
      ({ target with RedirectUri := c.RedirectUri, UserData := c.UserData }, none)
    | .access d =>
      let cl := decodeClient d.Client target.Client
      ({ target with Client := cl.1, ExpiresIn := d.ExpiresIn, Scope := d.Scope,
                     RedirectUri := d.RedirectUri, CreatedAt := d.CreatedAt,
                     UserData := d.UserData }, cl.2)

/-- Transcoding of access data, with the same rule for documents of another
record. -/
instance : Transcodable AccessData where
  encode := Doc.access
  decode doc target :=
    match doc with
    | .access d => decodeAccessData d target
    | .client c =>
      ({ target with RedirectUri := c.RedirectUri, UserData := c.UserData }, none)
    | .authorize a =>
      let cl := decodeClient a.Client target.Client
      ({ target with Client := cl.1, ExpiresIn := a.ExpiresIn, Scope := a.Scope,
                     RedirectUri := a.RedirectUri, CreatedAt := a.CreatedAt,
                     UserData := a.UserData }, cl.2)

/-- The call `bucket.Upsert(key, value, expiry)`: the error it returns and the
bucket afterwards.  (The CAS it also returns is dropped by every caller.) -/
def Bucket.Upsert {α : Type} [Transcodable α] (b : Bucket) (key : String) (value : α)
    (expiry : Nat) : Option GoError × Bucket :=
  let doc := Transcodable.encode value
  let b1 := b.received (.upsert key doc expiry)
  match b.nextFault with
  | some e => (some e, b1)
  | none =>
    (none, { b1 with docs := fun k => if k = key then some ⟨doc, expiry⟩ else b.docs k })

/-- The call `bucket.Get(key, valuePtr)`: the value behind `valuePtr`
afterwards, the error, and the bucket afterwards.  A missing key gives
`ErrKeyNotFound` and leaves the value as it was; a document that is found is
decoded into the value, and the decoder's error is returned. -/
def Bucket.Get {α : Type} [Transcodable α] (b : Bucket) (key : String) (valuePtr : α) :
    (α × Option GoError) × Bucket :=
  let b1 := b.received (.get key)
  match b.nextFault with
  | some e => ((valuePtr, some e), b1)
  | none =>
    match b.docs key with
    | none => ((valuePtr, some .ErrKeyNotFound), b1)
    | some entry => (Transcodable.decode entry.doc valuePtr, b1)

/-- The call `bucket.Remove(key, cas)`, with `cas = 0` (no CAS check) as the
adapter always passes it: a missing key gives `ErrKeyNotFound`. -/
def Bucket.Remove (b : Bucket) (key : String) (cas : Nat) : Option GoError × Bucket :=
  let b1 := b.received (.remove key cas)
  match b.nextFault with
  | some e => (some e, b1)
  | none =>
    match b.docs key with
    | none => (some .ErrKeyNotFound, b1)
    | some _ => (none, { b1 with docs := fun k => if k = key then none else b.docs k })

/-! ## Configuration and construction -/

def accessTokenKeyPrefix : String := "a_"

def refreshTokenKeyPrefix : String := "r_"

/-- The record `Config`. -/
structure Config where
  ConnectionString : String
  BucketName : String
  BucketPassword : String
deriving DecidableEq

/-- The method `Config.Validate`.  (`len` counts bytes; a string has no bytes
exactly when it has no characters.) -/
def Config.Validate (c : Config) : Option GoError :=
  if c.ConnectionString.length = 0 then
    some (.New "empty connection string provided")
  else if c.BucketName.length = 0 then
    some (.New "empty bucket name provided")
  else
    none

/-- The adapter `Storage`. -/
structure Storage where
  bucket : Bucket

/-- What `gocb.Connect` and `Cluster.OpenBucket` answer: the deployment the
process runs against. -/
structure Driver where
  Connect : String → Option GoError
  OpenBucket : String → String → String → Except GoError Bucket

/-- A call `NewStorage` makes to the driver. -/
inductive Dial where
  | connect (connSpec : String)
  | openBucket (bucket : String) (password : String)
deriving DecidableEq

/-- The result of `NewStorage`: the storage pointer, the error, and the calls
made to the driver. -/
structure NewStorageResult where
  storage : Option Storage
  err : Option GoError
  dials : List Dial

/-- The function `NewStorage`. -/
def NewStorage (driver : Driver) (config : Config) : NewStorageResult :=
  match config.Validate with
  | some err => { storage := none, err := some err, dials := [] }
  | none =>
    match driver.Connect config.ConnectionString with
    | some err =>
      { storage := none, err := some err, dials := [.connect config.ConnectionString] }
    | none =>
      let dials := [Dial.connect config.ConnectionString,
                    Dial.openBucket config.BucketName config.BucketPassword]
      match driver.OpenBucket config.ConnectionString config.BucketName
              config.BucketPassword with
      | .error err => { storage := none, err := some err, dials := dials }
      | .ok bucket => { storage := some { bucket := bucket }, err := none, dials := dials }

/-! ## The adapter's methods -/

namespace Storage

/-- The method `Clone`: the storage itself. -/
def Clone (s : Storage) : Storage := s

/-- The method `Close`: nothing is done. -/
def Close (s : Storage) : Storage := s

/-- The method `SetClient`. -/
def SetClient (s : Storage) (client : DefaultClient) : Option GoError × Storage :=
  let r := s.bucket.Upsert client.GetId client 0
  (r.1, { bucket := r.2 })

/-- The method `GetClient`. -/
def GetClient (s : Storage) (id : String) : (DefaultClient × Option GoError) × Storage :=
  let client := DefaultClient.zero
  let r := s.bucket.Get id client
  (r.1, { bucket := r.2 })

/-- The method `SaveAuthorize`. -/
def SaveAuthorize (s : Storage) (data : AuthorizeData) : Option GoError × Storage :=
  let r := s.bucket.Upsert data.Code data (uint32 data.ExpiresIn)
  (r.1, { bucket := r.2 })

/-- The method `LoadAuthorize`. -/
def LoadAuthorize (s : Storage) (code : String) :
    (AuthorizeData × Option GoError) × Storage :=
  let data := AuthorizeData.zero
  let data := { data with Client := some DefaultClient.zero }
  let r := s.bucket.Get code data
  (r.1, { bucket := r.2 })

/-- The method `RemoveAuthorize`. -/
def RemoveAuthorize (s : Storage) (code : String) : Option GoError × Storage :=
  let r := s.bucket.Remove code 0
  (r.1, { bucket := r.2 })

/-- The method `SaveAccess`. -/
def SaveAccess (s : Storage) (data : AccessData) : Option GoError × Storage :=
  let accessKey := accessTokenKeyPrefix ++ data.AccessToken
  let r1 := s.bucket.Upsert accessKey data (uint32 data.ExpiresIn)
  match r1.1 with
  | some err => (some err, { bucket := r1.2 })
  | none =>
    if data.RefreshToken.length > 0 then
      match data.AccessData with
      | some prev =>
        let refreshKey := refreshTokenKeyPrefix ++ data.RefreshToken
        let r2 := r1.2.Upsert refreshKey prev (uint32 data.ExpiresIn)
        match r2.1 with
        | some err => (some err, { bucket := r2.2 })
        | none => (none, { bucket := r2.2 })
      | none => (none, { bucket := r1.2 })
    else
      (none, { bucket := r1.2 })

/-- The value `LoadAccess` and `LoadRefresh` allocate before the read: empty
records nested two levels deep. -/
def accessShell : AccessData :=
  { AccessData.zero with
    Client := some DefaultClient.zero
    AuthorizeData := some { AuthorizeData.zero with Client := some DefaultClient.zero }
    AccessData := some
      { AccessData.zero with
        Client := some DefaultClient.zero
        AuthorizeData := some { AuthorizeData.zero with Client := some DefaultClient.zero } } }

/-- The method `LoadAccess`. -/
def LoadAccess (s : Storage) (token : String) : (AccessData × Option GoError) × Storage :=
  let key := accessTokenKeyPrefix ++ token
  let data := accessShell
  let r := s.bucket.Get key data
  (r.1, { bucket := r.2 })

/-- The method `RemoveAccess`. -/
def RemoveAccess (s : Storage) (token : String) : Option GoError × Storage :=
  let key := accessTokenKeyPrefix ++ token
  let r := s.bucket.Remove key 0
  (r.1, { bucket := r.2 })

/-- The method `LoadRefresh`. -/
def LoadRefresh (s : Storage) (token : String) : (AccessData × Option GoError) × Storage :=
  let key := refreshTokenKeyPrefix ++ token
  let data := accessShell
  let r := s.bucket.Get key data
  (r.1, { bucket := r.2 })

/-- The method `RemoveRefresh`. -/
def RemoveRefresh (s : Storage) (token : String) : Option GoError × Storage :=
  let key := refreshTokenKeyPrefix ++ token
  let r := s.bucket.Remove key 0
  (r.1, { bucket := r.2 })

end Storage

/-- No client anywhere in the record: not its own, not its authorize data's,
not in its chain of previous access data. -/
def AccessData.clientFree : OsinCouchbase.AccessData → Bool
  | ⟨client, authorize, prev, _, _, _, _, _, _, _⟩ =>
    client.isNone &&
    (match authorize with
      | none => true
      | some a => a.Client.isNone) &&
    (match prev with
      | none => true
      | some q => clientFree q)

/-- The record has clients in its first two levels only (itself and its
previous access data), the levels for which `LoadAccess` and `LoadRefresh`
allocate clients: from the third level down it is free of clients. -/
def AccessData.fitsShell (d : OsinCouchbase.AccessData) : Bool :=
  match d.AccessData with
  | none => true
  | some p =>
    match p.AccessData with
    | none => true
    | some q => q.clientFree

/-! ## Sequences of adapter operations -/

/-- One call of an adapter method. -/
inductive Op where
  | SetClient (client : DefaultClient)
  | GetClient (id : String)
  | SaveAuthorize (data : AuthorizeData)
  | LoadAuthorize (code : String)
  | RemoveAuthorize (code : String)
  | SaveAccess (data : AccessData)
  | LoadAccess (token : String)
  | RemoveAccess (token : String)
  | LoadRefresh (token : String)
  | RemoveRefresh (token : String)

/-- The storage after one call. -/
def Storage.apply (s : Storage) : Op → Storage
  | .SetClient client => (s.SetClient client).2
  | .GetClient id => (s.GetClient id).2
  | .SaveAuthorize data => (s.SaveAuthorize data).2
  | .LoadAuthorize code => (s.LoadAuthorize code).2
  | .RemoveAuthorize code => (s.RemoveAuthorize code).2
  | .SaveAccess data => (s.SaveAccess data).2
  | .LoadAccess token => (s.LoadAccess token).2
  | .RemoveAccess token => (s.RemoveAccess token).2
  | .LoadRefresh token => (s.LoadRefresh token).2
  | .RemoveRefresh token => (s.RemoveRefresh token).2

/-- The storage after a sequence of calls. -/
def Storage.run (s : Storage) (ops : List Op) : Storage := ops.foldl Storage.apply s

/-- The keys a call passes to `Upsert` when nothing fails. -/
def Op.writes : Op → List String
  | .SetClient client => [client.GetId]
  | .SaveAuthorize data => [data.Code]
  | .SaveAccess data =>
    (accessTokenKeyPrefix ++ data.AccessToken) ::
      (if data.RefreshToken.length > 0 ∧ data.AccessData.isSome then
        [refreshTokenKeyPrefix ++ data.RefreshToken]
      else [])
  | _ => []

/-- The keys a sequence of calls passes to `Upsert` when nothing fails. -/
def keysWritten : List Op → List String
  | [] => []
  | op :: ops => op.writes ++ keysWritten ops

/-- A storage over an empty bucket that serves every call. -/
def Storage.empty : Storage :=
  { bucket := { docs := fun _ => none, faults := [], log := [] } }

/-- The store serves every coming call: nothing is scripted to fail. -/
def Storage.FaultFree (s : Storage) : Prop := s.bucket.faults = []

/-! ## Sample inputs

The records of the repository's tests, and a few small ones. -/

/-- A driver that reaches a cluster and opens an empty bucket, whatever it is
asked for. -/
def reachableDriver : Driver :=
  { Connect := fun _ => none,
    OpenBucket := fun _ _ _ => .ok { docs := fun _ => none, faults := [], log := [] } }

/-- The client of `TestGetClient`. -/
def clientData : DefaultClient :=
  { Id := "client_id", Secret := "client_secret",
    RedirectUri := "http://some.redirect.here", UserData := some "foobar" }

/-- The authorize data of `TestSaveLoadRemoveAuthorize`. -/
def authorizeData : AuthorizeData :=
  { Client := some clientData, Code := "foo", ExpiresIn := 1000, Scope := "scope.foo.read",
    RedirectUri := "http://redirect.me", State := "state.foo", CreatedAt := 1420114332,
    UserData := some "foodata" }

/-- The previous access data of `TestSaveLoadRemoveAccessRefresh`. -/
def refreshData : AccessData :=
  { Client := some clientData,
    AuthorizeData := some
      { authorizeData with Code := "refreshfoo", ExpiresIn := 1234,
                           UserData := some "refreshfoodata" },
    AccessData := none, AccessToken := "refreshfootookeeen", RefreshToken := "",
    ExpiresIn := 1000, Scope := "scope.foo.read", RedirectUri := "http://redirect.me",
    CreatedAt := 1420114332, UserData := some "refreshfoodata" }

/-- The access data of `TestSaveLoadRemoveAccessRefresh`. -/
def accessData : AccessData :=
  { Client := some clientData, AuthorizeData := some authorizeData,
    AccessData := some refreshData, RefreshToken := "refreshfootookeeen",
    AccessToken := "footookeeen", ExpiresIn := 4321, Scope := "scope.foo.read",
    RedirectUri := "http://redirect.me", CreatedAt := 1420114332,
    UserData := some "accessfoodata" }

/-- Access data as a first grant issues it: a refresh token, and no previous
access data. -/
def firstGrant : AccessData :=
  { AccessData.zero with AccessToken := "at", RefreshToken := "rt", ExpiresIn := 3600 }

/-- Access data whose access token and refresh token are the same string. -/
def sameTokens : AccessData :=
  { AccessData.zero with
    AccessToken := "t", RefreshToken := "t", ExpiresIn := 60,
    AccessData := some { AccessData.zero with AccessToken := "old" } }

/-- Access data of the third generation: its previous access data has
previous access data of its own, which carries a client. -/
def thirdGeneration : AccessData :=
  { AccessData.zero with
    AccessToken := "t3", RefreshToken := "r3",
    AccessData := some
      { AccessData.zero with
        AccessToken := "t2", RefreshToken := "r2",
        AccessData := some
          { AccessData.zero with AccessToken := "t1", Client := some clientData } } }

/-- Access data of the fourth generation: its previous access data is
`thirdGeneration`. -/
def fourthGeneration : AccessData :=
  { AccessData.zero with
    AccessToken := "t4", RefreshToken := "r4", AccessData := some thirdGeneration }

/-- Authorize data with a negative `ExpiresIn`. -/
def negativeExpiry : AuthorizeData :=
  { AuthorizeData.zero with Code := "c", ExpiresIn := -1 }

/-- A storage over an empty bucket whose store serves the first call and fails
the second with a timeout. -/
def failsSecond : Storage :=
  { bucket := { docs := fun _ => none, faults := [none, some (GoError.driver "timeout")],
                log := [] } }

/-- A storage over an empty bucket whose store fails the first call with a
timeout. -/
def failsFirst : Storage :=
  { bucket := { docs := fun _ => none, faults := [some (GoError.driver "timeout")],
                log := [] } }

/-- A client whose identifier starts with the access-token prefix. -/
def prefixedClient : DefaultClient := { DefaultClient.zero with Id := "a_tok" }

/-! ## Construction -/

theorem length_eq_zero_iff_empty (x : String) : x.length = 0 ↔ x = "" := by
  constructor
  · intro h
    have hd : x.data = [] := List.length_eq_zero.mp h
    exact String.ext hd
  · intro h
    subst h
    rfl

/-- C3: `NewStorage`, through `Config.Validate`, fails with the error
`errors.New("empty connection string provided")` whenever the connection
string is empty (whatever the bucket name), and with
`errors.New("empty bucket name provided")` whenever the connection string is
not empty and the bucket name is; in both cases it returns a nil storage and
has made no call to the driver.  `Validate` returns nil exactly when both
fields are non-empty, and the bucket password plays no part. -/
theorem NewStorage_validates_config (driver : Driver) (c : Config) :
    (c.ConnectionString = "" →
      c.Validate = some (GoError.New "empty connection string provided") ∧
      (NewStorage driver c).storage.isNone = true ∧
      (NewStorage driver c).err = some (GoError.New "empty connection string provided") ∧
      (NewStorage driver c).dials = []) ∧
    (c.ConnectionString ≠ "" → c.BucketName = "" →
      c.Validate = some (GoError.New "empty bucket name provided") ∧
      (NewStorage driver c).storage.isNone = true ∧
      (NewStorage driver c).err = some (GoError.New "empty bucket name provided") ∧
      (NewStorage driver c).dials = []) ∧
    (c.Validate = none ↔ c.ConnectionString ≠ "" ∧ c.BucketName ≠ "") ∧
    (∀ password : String, { c with BucketPassword := password }.Validate = c.Validate) := by
  refine ⟨?_, ?_, ?_, ?_⟩
  · intro h
    have hv : c.Validate = some (GoError.New "empty connection string provided") := by
      simp [Config.Validate, h]
    simp [NewStorage, hv]
  · intro h1 h2
    have h1l : ¬ c.ConnectionString.length = 0 := fun h => h1 ((length_eq_zero_iff_empty _).mp h)
    have hv : c.Validate = some (GoError.New "empty bucket name provided") := by
      simp [Config.Validate, h1l, h2]
    simp [NewStorage, hv]
  · unfold Config.Validate
    simp only [length_eq_zero_iff_empty]
    by_cases h1 : c.ConnectionString = "" <;> by_cases h2 : c.BucketName = "" <;> simp [h1, h2]
  · intro password
    rfl

/-- The two configurations of `TestIncorrectConfig`, with a driver that would
connect. -/
theorem NewStorage_validates_config_witness :
    ((⟨"", "something", ""⟩ : Config).Validate
        = some (GoError.New "empty connection string provided") ∧
      (NewStorage reachableDriver ⟨"", "something", ""⟩).dials = []) ∧
    ((⟨"something", "", ""⟩ : Config).Validate
        = some (GoError.New "empty bucket name provided") ∧
      (NewStorage reachableDriver ⟨"something", "", ""⟩).dials = []) :=
  ⟨let h := (NewStorage_validates_config reachableDriver ⟨"", "something", ""⟩).1 rfl
   ⟨h.1, h.2.2.2⟩,
   let h := (NewStorage_validates_config reachableDriver ⟨"something", "", ""⟩).2.1
     (by decide) rfl
   ⟨h.1, h.2.2.2⟩⟩

/-! ## Decoding -/

theorem decodeClient_of_none (target : Option DefaultClient) :
    decodeClient none target = (none, none) := by
  cases target <;> rfl

/-- A client value decodes as it is into a field that holds a client. -/
theorem decodeClient_into_some (value : Option DefaultClient) (t : DefaultClient) :
    decodeClient value (some t) = (value, none) := by
  cases value <;> rfl

/-- Authorize data decodes as it is into a record that holds a client. -/
theorem decodeAuthorizeData_into_client (a target : AuthorizeData) (t : DefaultClient)
    (h : target.Client = some t) : decodeAuthorizeData a target = (a, none) := by
  simp [decodeAuthorizeData, h, decodeClient_into_some]

theorem decodeAuthorizePtr_into_client (value : Option AuthorizeData)
    (target : AuthorizeData) (t : DefaultClient) (h : target.Client = some t) :
    decodeAuthorizePtr value (some target) = (value, none) := by
  cases value with
  | none => rfl
  | some a => simp [decodeAuthorizePtr, decodeAuthorizeData_into_client a target t h]

theorem decodeAuthorizePtr_of_clientFree (value target : Option AuthorizeData)
    (h : (match value with
          | none => true
          | some a => a.Client.isNone) = true) :
    decodeAuthorizePtr value target = (value, none) := by
  cases value with
  | none => rfl
  | some a =>
    cases a with
    | mk client code expires scope uri state created user =>
      simp only [Option.isNone_iff_eq_none] at h
      subst h
      simp [decodeAuthorizePtr, decodeAuthorizeData, decodeClient_of_none]

/-- A record free of clients decodes as it is into any record. -/
theorem decodeAccessData_of_clientFree :
    ∀ (d target : AccessData), d.clientFree = true → decodeAccessData d target = (d, none)
  | ⟨client, authorize, prev, _, _, _, _, _, _, _⟩, target, h => by
    unfold AccessData.clientFree at h
    simp only [Bool.and_eq_true, Option.isNone_iff_eq_none] at h
    obtain ⟨⟨hc, ha⟩, hp⟩ := h
    subst hc
    have hau := decodeAuthorizePtr_of_clientFree authorize target.AuthorizeData ha
    cases prev with
    | none => simp [decodeAccessData, decodeClient_of_none, firstError, hau]
    | some q =>
      have ih := decodeAccessData_of_clientFree q (target.AccessData.getD AccessData.zero) hp
      simp [decodeAccessData, decodeClient_of_none, firstError, hau, ih]

/-- A record decodes as it is into a record that holds a client and
authorize data with a client, when its previous access data does so into the
record behind the target's pointer. -/
theorem decodeAccessData_into_clients (d target : AccessData) (t1 t2 : DefaultClient)
    (ta : AuthorizeData) (h1 : target.Client = some t1) (h2 : target.AuthorizeData = some ta)
    (h3 : ta.Client = some t2)
    (hp : ∀ q, d.AccessData = some q →
      decodeAccessData q (target.AccessData.getD AccessData.zero) = (q, none)) :
    decodeAccessData d target = (d, none) := by
  cases d with
  | mk client authorize prev token refresh expires scope uri created user =>
    have hau := decodeAuthorizePtr_into_client authorize ta t2 h3
    cases prev with
    | none => simp [decodeAccessData, h1, h2, decodeClient_into_some, firstError, hau]
    | some q =>
      have hq := hp q rfl
      simp [decodeAccessData, h1, h2, decodeClient_into_some, firstError, hau, hq]

/-- A record that has clients in its first two levels only decodes as it is
into the value `LoadAccess` and `LoadRefresh` allocate. -/
theorem decodeAccessData_accessShell (d : AccessData) (h : d.fitsShell = true) :
    decodeAccessData d Storage.accessShell = (d, none) := by
  refine decodeAccessData_into_clients d Storage.accessShell DefaultClient.zero
    DefaultClient.zero { AuthorizeData.zero with Client := some DefaultClient.zero }
    rfl rfl rfl ?_
  intro p hp
  refine decodeAccessData_into_clients p _ DefaultClient.zero
    DefaultClient.zero { AuthorizeData.zero with Client := some DefaultClient.zero }
    rfl rfl rfl ?_
  intro q hq
  apply decodeAccessData_of_clientFree
  simpa [AccessData.fitsShell, hp, hq] using h

/-- A record that carries a client somewhere does not decode into the zero
record: the decoder answers `UnmarshalTypeError`. -/
theorem decodeAccessData_zero_error :
    ∀ (d : AccessData), d.clientFree = false →
      (decodeAccessData d AccessData.zero).2 = some GoError.UnmarshalTypeError
  | ⟨client, authorize, prev, _, _, _, _, _, _, _⟩, h => by
    have hz : AccessData.zero.AccessData.getD AccessData.zero = AccessData.zero := rfl
    have hzc : AccessData.zero.Client = none := rfl
    have hza : AccessData.zero.AuthorizeData = none := rfl
    have hzz : AuthorizeData.zero.Client = none := rfl
    cases prev with
    | none =>
      cases client with
      | some c => simp [decodeAccessData, decodeClient, hzc, firstError]
      | none =>
        cases authorize with
        | none => simp [AccessData.clientFree] at h
        | some a =>
          cases hc : a.Client with
          | none => simp [AccessData.clientFree, hc] at h
          | some c2 =>
            simp [decodeAccessData, decodeClient, decodeAuthorizePtr, decodeAuthorizeData,
              firstError, hc, hzc, hza, hzz]
    | some q =>
      cases client with
      | some c => simp [decodeAccessData, decodeClient, hzc, firstError]
      | none =>
        cases authorize with
        | none =>
          have hq : q.clientFree = false := by simpa [AccessData.clientFree] using h
          have ih := decodeAccessData_zero_error q hq
          simp [decodeAccessData, decodeClient, decodeAuthorizePtr, firstError, hz, ih]
        | some a =>
          cases hc : a.Client with
          | none =>
            have hq : q.clientFree = false := by simpa [AccessData.clientFree, hc] using h
            have ih := decodeAccessData_zero_error q hq
            simp [decodeAccessData, decodeClient, decodeAuthorizePtr, decodeAuthorizeData,
              firstError, hc, hz, ih]
          | some c2 =>
            simp [decodeAccessData, decodeClient, decodeAuthorizePtr, decodeAuthorizeData,
              firstError, hc, hzc, hza, hzz]

/-- The error of decoding into a record that holds a client and authorize
data with a client is the error of decoding the previous access data. -/
theorem decodeAccessData_into_clients_error (d target : AccessData) (t1 t2 : DefaultClient)
    (ta : AuthorizeData) (h1 : target.Client = some t1) (h2 : target.AuthorizeData = some ta)
    (h3 : ta.Client = some t2) (q : AccessData) (hq : d.AccessData = some q) :
    (decodeAccessData d target).2
      = (decodeAccessData q (target.AccessData.getD AccessData.zero)).2 := by
  cases d with
  | mk client authorize prev token refresh expires scope uri created user =>
    have hau := decodeAuthorizePtr_into_client authorize ta t2 h3
    simp only at hq
    subst hq
    simp [decodeAccessData, h1, h2, decodeClient_into_some, firstError, hau]

/-- The value `LoadAccess` and `LoadRefresh` allocate takes exactly the records
that have clients in their first two levels only. -/
theorem decodeAccessData_accessShell_error_iff (d : AccessData) :
    (decodeAccessData d Storage.accessShell).2 = none ↔ d.fitsShell = true := by
  constructor
  · intro h
    by_contra hf
    have hf2 : d.fitsShell = false := by simpa using hf
    unfold AccessData.fitsShell at hf2
    cases hp : d.AccessData with
    | none => simp [hp] at hf2
    | some p =>
      cases hq : p.AccessData with
      | none => simp [hp, hq] at hf2
      | some q =>
        have hqf : q.clientFree = false := by simpa [hp, hq] using hf2
        have e1 := decodeAccessData_into_clients_error d Storage.accessShell
          DefaultClient.zero DefaultClient.zero
          { AuthorizeData.zero with Client := some DefaultClient.zero } rfl rfl rfl p hp
        have e2 := decodeAccessData_into_clients_error p
          (Storage.accessShell.AccessData.getD AccessData.zero)
          DefaultClient.zero DefaultClient.zero
          { AuthorizeData.zero with Client := some DefaultClient.zero } rfl rfl rfl q hq
        have e3 := decodeAccessData_zero_error q hqf
        rw [e1, e2] at h
        rw [show (Storage.accessShell.AccessData.getD AccessData.zero).AccessData.getD
          AccessData.zero = AccessData.zero from rfl, e3] at h
        cases h
  · intro h
    rw [decodeAccessData_accessShell d h]

/-- The previous access data of a record that fits the allocated value fits
it too. -/
theorem fitsShell_previous (d p : AccessData) (h : d.fitsShell = true)
    (hp : d.AccessData = some p) : p.fitsShell = true := by
  unfold AccessData.fitsShell
  cases hq : p.AccessData with
  | none => rfl
  | some q =>
    have hqf : q.clientFree = true := by simpa [AccessData.fitsShell, hp, hq] using h
    cases q with
    | mk client authorize prev token refresh expires scope uri created user =>
      cases prev with
      | none => rfl
      | some r =>
        unfold AccessData.clientFree at hqf
        simp only [Bool.and_eq_true] at hqf
        exact hqf.2

/-- The decoder never answers `ErrKeyNotFound`. -/
theorem decodeAccessData_error :
    ∀ (d target : AccessData),
      (decodeAccessData d target).2 = none ∨
      (decodeAccessData d target).2 = some GoError.UnmarshalTypeError
  | ⟨client, authorize, prev, _, _, _, _, _, _, _⟩, target => by
    have hc : ∀ v t, (decodeClient v t).2 = none ∨
        (decodeClient v t).2 = some GoError.UnmarshalTypeError := by
      intro v t
      cases v <;> cases t <;> simp [decodeClient]
    have ha : (decodeAuthorizePtr authorize target.AuthorizeData).2 = none ∨
        (decodeAuthorizePtr authorize target.AuthorizeData).2
          = some GoError.UnmarshalTypeError := by
      cases authorize with
      | none => exact Or.inl rfl
      | some a => exact hc _ _
    have hcl := hc client target.Client
    cases prev with
    | none =>
      rcases hcl with h1 | h1 <;> rcases ha with h2 | h2 <;>
      simp [decodeAccessData, firstError, h1, h2]
    | some q =>
      have ih := decodeAccessData_error q (target.AccessData.getD AccessData.zero)
      rcases hcl with h1 | h1 <;> rcases ha with h2 | h2 <;> rcases ih with h3 | h3 <;>
      simp [decodeAccessData, firstError, h1, h2, h3]

theorem decode_access_not_ErrKeyNotFound (doc : Doc) (target : AccessData) :
    (Transcodable.decode doc target).2 ≠ some GoError.ErrKeyNotFound := by
  cases doc with
  | client c => simp [Transcodable.decode]
  | authorize a =>
    cases ha : a.Client <;> cases ht : target.Client <;>
    simp [Transcodable.decode, decodeClient, ha, ht]
  | access d =>
    rcases decodeAccessData_error d target with h | h <;> simp [Transcodable.decode, h]

/-! ## Round trips -/

/-- C9: in a store that serves every call, `SetClient c` succeeds, a following
`GetClient` of the client's identifier returns `c` and no error, and
`SetClient` has written the key equal to the identifier (no prefix, no expiry)
and changed no other key. -/
theorem SetClient_GetClient_roundtrip (s : Storage) (c : DefaultClient)
    (h : s.FaultFree) :
    (s.SetClient c).1 = none ∧
    ((s.SetClient c).2.GetClient c.GetId).1 = (c, none) ∧
    (s.SetClient c).2.bucket.docs c.GetId = some ⟨Doc.client c, 0⟩ ∧
    (∀ k, k ≠ c.GetId → (s.SetClient c).2.bucket.docs k = s.bucket.docs k) := by
  unfold Storage.FaultFree at h
  refine ⟨?_, ?_, ?_, ?_⟩
  · simp [Storage.SetClient, Bucket.Upsert, Bucket.nextFault, h]
  · simp [Storage.SetClient, Storage.GetClient, Bucket.Upsert, Bucket.Get, Bucket.nextFault,
      Bucket.received, h, Transcodable.encode, Transcodable.decode]
  · simp [Storage.SetClient, Bucket.Upsert, Bucket.nextFault, h, Transcodable.encode]
  · intro k hk
    simp [Storage.SetClient, Bucket.Upsert, Bucket.nextFault, h, hk]

/-- The client of the repository's test, stored in the empty storage and
read back. -/
theorem SetClient_GetClient_roundtrip_witness :
    Storage.empty.FaultFree ∧
    ((Storage.empty.SetClient clientData).2.GetClient "client_id").1 = (clientData, none) :=
  ⟨rfl, (SetClient_GetClient_roundtrip Storage.empty clientData rfl).2.1⟩

/-- C4: in a store that serves every call, `SaveAuthorize a` succeeds and a
following `LoadAuthorize a.Code` returns `a` (its client included) and no
error; `RemoveAuthorize a.Code` then succeeds, and a further
`LoadAuthorize a.Code` fails with `ErrKeyNotFound`. -/
theorem SaveAuthorize_Load_Remove_Load (s : Storage) (a : AuthorizeData)
    (h : s.FaultFree) :
    (s.SaveAuthorize a).1 = none ∧
    ((s.SaveAuthorize a).2.LoadAuthorize a.Code).1 = (a, none) ∧
    (((s.SaveAuthorize a).2.LoadAuthorize a.Code).2.RemoveAuthorize a.Code).1 = none ∧
    (((((s.SaveAuthorize a).2.LoadAuthorize a.Code).2.RemoveAuthorize a.Code).2.LoadAuthorize
        a.Code).1).2 = some GoError.ErrKeyNotFound := by
  unfold Storage.FaultFree at h
  have hdec := decodeAuthorizeData_into_client a
    { AuthorizeData.zero with Client := some DefaultClient.zero } DefaultClient.zero rfl
  refine ⟨?_, ?_, ?_, ?_⟩ <;>
  simp [Storage.SaveAuthorize, Storage.LoadAuthorize, Storage.RemoveAuthorize, Bucket.Upsert,
    Bucket.Get, Bucket.Remove, Bucket.nextFault, Bucket.received, h, Transcodable.encode,
    Transcodable.decode, hdec]

/-- The authorize data of the repository's test: saved, loaded, removed and
loaded again. -/
theorem SaveAuthorize_Load_Remove_Load_witness :
    Storage.empty.FaultFree ∧
    ((Storage.empty.SaveAuthorize authorizeData).2.LoadAuthorize "foo").1
        = (authorizeData, none) ∧
    (((((Storage.empty.SaveAuthorize authorizeData).2.LoadAuthorize "foo").2.RemoveAuthorize
        "foo").2.LoadAuthorize "foo").1).2 = some GoError.ErrKeyNotFound :=
  let h := SaveAuthorize_Load_Remove_Load Storage.empty authorizeData rfl
  ⟨rfl, h.2.1, h.2.2.2⟩

/-! ## Access and refresh tokens -/

/-- An access-token key is never a refresh-token key. -/
theorem accessKey_ne_refreshKey (t u : String) :
    accessTokenKeyPrefix ++ t ≠ refreshTokenKeyPrefix ++ u := by
  intro h
  have hd := congrArg String.data h
  simp [accessTokenKeyPrefix, refreshTokenKeyPrefix] at hd

theorem refreshKey_ne_accessKey (t u : String) :
    refreshTokenKeyPrefix ++ u ≠ accessTokenKeyPrefix ++ t :=
  fun h => accessKey_ne_refreshKey t u h.symm

theorem length_pos_of_ne_empty (x : String) (h : x ≠ "") : x.length > 0 :=
  Nat.pos_of_ne_zero (fun h0 => h ((length_eq_zero_iff_empty x).mp h0))

/-- The storage `SaveAccess` leaves behind, in a store that serves every call,
for data with a refresh token and previous access data. -/
theorem SaveAccess_faultFree (s : Storage) (d p : AccessData) (h : s.FaultFree)
    (hr : d.RefreshToken ≠ "") (hp : d.AccessData = some p) :
    s.SaveAccess d = (none,
      { bucket :=
        { docs := fun k =>
            if k = refreshTokenKeyPrefix ++ d.RefreshToken then
              some ⟨Doc.access p, uint32 d.ExpiresIn⟩
            else if k = accessTokenKeyPrefix ++ d.AccessToken then
              some ⟨Doc.access d, uint32 d.ExpiresIn⟩
            else s.bucket.docs k,
          faults := [],
          log := s.bucket.log ++
            [Call.upsert (accessTokenKeyPrefix ++ d.AccessToken) (Doc.access d)
               (uint32 d.ExpiresIn),
             Call.upsert (refreshTokenKeyPrefix ++ d.RefreshToken) (Doc.access p)
               (uint32 d.ExpiresIn)] } }) := by
  unfold Storage.FaultFree at h
  have hl := length_pos_of_ne_empty _ hr
  simp [Storage.SaveAccess, Bucket.Upsert, Bucket.nextFault, Bucket.received, h, hl, hp,
    Transcodable.encode]

/-- The two keys `SaveAccess` has written, in a store that serves every call. -/
theorem SaveAccess_docs (s : Storage) (d p : AccessData)
    (h : s.FaultFree) (hr : d.RefreshToken ≠ "") (hp : d.AccessData = some p) :
    (s.SaveAccess d).2.bucket.docs (accessTokenKeyPrefix ++ d.AccessToken)
      = some ⟨Doc.access d, uint32 d.ExpiresIn⟩ ∧
    (s.SaveAccess d).2.bucket.docs (refreshTokenKeyPrefix ++ d.RefreshToken)
      = some ⟨Doc.access p, uint32 d.ExpiresIn⟩ := by
  rw [SaveAccess_faultFree s d p h hr hp]
  have hne := accessKey_ne_refreshKey d.AccessToken d.RefreshToken
  simp [hne]

/-- C1, as the code has it: in a store that serves every call, for access data
`d` with a non-empty refresh token and previous access data `p`: `SaveAccess d`
succeeds and leaves `d` under the access-token key and `p` under the
refresh-token key, also when the two tokens are the same string.  Afterwards
`LoadAccess d.AccessToken` returns `d` and no error when `d` has clients in
its first two levels only, and `LoadRefresh d.RefreshToken` (after that load,
or instead of it) returns `p` and no error when `p` has clients in its first
two levels only, which is so whenever it is so for `d`. -/
theorem SaveAccess_then_LoadAccess_LoadRefresh (s : Storage) (d p : AccessData)
    (h : s.FaultFree) (hr : d.RefreshToken ≠ "") (hp : d.AccessData = some p) :
    (s.SaveAccess d).1 = none ∧
    (d.fitsShell = true →
      ((s.SaveAccess d).2.LoadAccess d.AccessToken).1 = (d, none)) ∧
    (p.fitsShell = true →
      (((s.SaveAccess d).2.LoadAccess d.AccessToken).2.LoadRefresh d.RefreshToken).1
        = (p, none) ∧
      ((s.SaveAccess d).2.LoadRefresh d.RefreshToken).1 = (p, none)) ∧
    (d.fitsShell = true → p.fitsShell = true) ∧
    (s.SaveAccess d).2.bucket.docs (accessTokenKeyPrefix ++ d.AccessToken)
      = some ⟨Doc.access d, uint32 d.ExpiresIn⟩ ∧
    (s.SaveAccess d).2.bucket.docs (refreshTokenKeyPrefix ++ d.RefreshToken)
      = some ⟨Doc.access p, uint32 d.ExpiresIn⟩ := by
  rw [SaveAccess_faultFree s d p h hr hp]
  have hne := accessKey_ne_refreshKey d.AccessToken d.RefreshToken
  refine ⟨rfl, ?_, ?_, fun hd => fitsShell_previous d p hd hp, ?_, ?_⟩
  · intro hd
    simp [Storage.LoadAccess, Bucket.Get, Bucket.nextFault, Transcodable.decode, hne,
      decodeAccessData_accessShell d hd]
  · intro hpf
    constructor <;>
    simp [Storage.LoadAccess, Storage.LoadRefresh, Bucket.Get, Bucket.nextFault,
      Bucket.received, Transcodable.decode, hne, decodeAccessData_accessShell p hpf]
  · simp [hne]
  · simp

/-- Access data whose two tokens are the same string `t`: both records are
read back. -/
theorem SaveAccess_then_LoadAccess_LoadRefresh_witness :
    Storage.empty.FaultFree ∧ sameTokens.RefreshToken ≠ "" ∧
    ((Storage.empty.SaveAccess sameTokens).2.LoadAccess "t").1 = (sameTokens, none) ∧
    ((Storage.empty.SaveAccess sameTokens).2.LoadRefresh "t").1
      = ({ AccessData.zero with AccessToken := "old" }, none) :=
  let h := SaveAccess_then_LoadAccess_LoadRefresh Storage.empty sameTokens
    { AccessData.zero with AccessToken := "old" } rfl (by decide) rfl
  ⟨rfl, by decide, h.2.1 rfl, (h.2.2.1 rfl).2⟩

/-- C1, as stated, fails on access data of the third generation (refresh
token `r3`, previous access data whose own previous access data carries a
client): `SaveAccess` succeeds, and `LoadAccess "t3"` returns the decoder's
`UnmarshalTypeError` and a record that has lost that client. -/
theorem LoadAccess_thirdGeneration_fails :
    thirdGeneration.RefreshToken ≠ "" ∧
    thirdGeneration.AccessData.isSome = true ∧
    (Storage.empty.SaveAccess thirdGeneration).1 = none ∧
    ((Storage.empty.SaveAccess thirdGeneration).2.LoadAccess thirdGeneration.AccessToken).1
      = ({ AccessData.zero with
           AccessToken := "t3", RefreshToken := "r3",
           AccessData := some
             { AccessData.zero with
               AccessToken := "t2", RefreshToken := "r2",
               AccessData := some { AccessData.zero with AccessToken := "t1" } } },
         some GoError.UnmarshalTypeError) :=
  ⟨by decide, rfl, rfl, rfl⟩

/-- No access data is its own previous access data. -/
theorem AccessData_ne_previous (d p : AccessData) (hp : d.AccessData = some p) : d ≠ p := by
  intro h
  subst h
  have hs := congrArg sizeOf hp
  cases d with
  | mk c a prev tok rt e sc ru cr ud =>
    simp at hs
    omega

/-- C7, as the code has it: in a store that serves every call, for access
data `d` with a non-empty refresh token and previous access data (so that the
refresh record is written), and with clients in its first two levels only,
both loads succeed after `SaveAccess d`, and the record
`LoadRefresh d.RefreshToken` returns is the previous access data nested in
the record `LoadAccess d.AccessToken` returns, which is a different record. -/
theorem LoadRefresh_is_previous_of_LoadAccess (s : Storage) (d p : AccessData)
    (h : s.FaultFree) (hr : d.RefreshToken ≠ "") (hp : d.AccessData = some p)
    (hf : d.fitsShell = true) :
    ((s.SaveAccess d).2.LoadAccess d.AccessToken).1.2 = none ∧
    ((s.SaveAccess d).2.LoadRefresh d.RefreshToken).1.2 = none ∧
    ((s.SaveAccess d).2.LoadAccess d.AccessToken).1.1.AccessData
      = some ((s.SaveAccess d).2.LoadRefresh d.RefreshToken).1.1 ∧
    ((s.SaveAccess d).2.LoadAccess d.AccessToken).1.1
      ≠ ((s.SaveAccess d).2.LoadRefresh d.RefreshToken).1.1 := by
  rw [SaveAccess_faultFree s d p h hr hp]
  have hne := accessKey_ne_refreshKey d.AccessToken d.RefreshToken
  have hdp := AccessData_ne_previous d p hp
  have hd := decodeAccessData_accessShell d hf
  have hpd := decodeAccessData_accessShell p (fitsShell_previous d p hf hp)
  refine ⟨?_, ?_, ?_, ?_⟩ <;>
  simp [Storage.LoadAccess, Storage.LoadRefresh, Bucket.Get, Bucket.nextFault, Bucket.received,
    Transcodable.decode, hne, hp, hdp, hd, hpd]

/-- The access data of the repository's test. -/
theorem LoadRefresh_is_previous_of_LoadAccess_witness :
    Storage.empty.FaultFree ∧ accessData.RefreshToken ≠ "" ∧
    accessData.AccessData = some refreshData ∧ accessData.fitsShell = true ∧
    ((Storage.empty.SaveAccess accessData).2.LoadAccess "footookeeen").1.1.AccessData
      = some ((Storage.empty.SaveAccess accessData).2.LoadRefresh "refreshfootookeeen").1.1 :=
  ⟨rfl, by decide, rfl, rfl,
   (LoadRefresh_is_previous_of_LoadAccess Storage.empty accessData refreshData rfl
     (by decide) rfl rfl).2.2.1⟩

/-- C7, as stated, fails on the records of the repository's test: after
`SaveAccess accessData` succeeds, both loads succeed, `LoadAccess` returns the
record whose access token is `footookeeen` and `LoadRefresh` the one whose
access token is `refreshfootookeeen`.  It fails also on access data of the
third generation, where `LoadAccess` returns the decoder's error and
`LoadRefresh` succeeds. -/
theorem LoadAccess_LoadRefresh_not_equal :
    (Storage.empty.SaveAccess accessData).1 = none ∧
    ((Storage.empty.SaveAccess accessData).2.LoadAccess accessData.AccessToken).1
      = (accessData, none) ∧
    ((Storage.empty.SaveAccess accessData).2.LoadRefresh accessData.RefreshToken).1
      = (refreshData, none) ∧
    accessData.AccessToken = "footookeeen" ∧
    refreshData.AccessToken = "refreshfootookeeen" ∧
    accessData ≠ refreshData ∧
    (Storage.empty.SaveAccess thirdGeneration).1 = none ∧
    ((Storage.empty.SaveAccess thirdGeneration).2.LoadAccess thirdGeneration.AccessToken).1.2
      = some GoError.UnmarshalTypeError ∧
    ((Storage.empty.SaveAccess thirdGeneration).2.LoadRefresh
        thirdGeneration.RefreshToken).1.2 = none := by
  refine ⟨rfl, rfl, rfl, rfl, rfl, ?_, rfl, rfl, rfl⟩
  intro h
  have ht := congrArg AccessData.AccessToken h
  revert ht
  decide

/-- C2 at a first grant: `SaveAccess firstGrant` (refresh token `rt`, no
previous access data) returns no error, writes the access-token key only, and
`LoadRefresh "rt"` then fails with `ErrKeyNotFound`. -/
theorem SaveAccess_firstGrant_LoadRefresh_fails :
    firstGrant.RefreshToken ≠ "" ∧
    (Storage.empty.SaveAccess firstGrant).1 = none ∧
    (Storage.empty.SaveAccess firstGrant).2.bucket.log
      = [Call.upsert "a_at" (Doc.access firstGrant) 3600] ∧
    ((Storage.empty.SaveAccess firstGrant).2.LoadRefresh firstGrant.RefreshToken).1.2
      = some GoError.ErrKeyNotFound := by
  refine ⟨by decide, rfl, rfl, ?_⟩
  simp [Storage.SaveAccess, Storage.LoadRefresh, Storage.empty, Bucket.Upsert, Bucket.Get,
    Bucket.nextFault, Bucket.received, firstGrant, AccessData.zero, refreshKey_ne_accessKey]

/-! ## Removal -/

/-- C5, as the code has it: in a store that serves every call and holds both
the access-token key of `t` and the refresh-token key of `u`: `RemoveAccess t`
succeeds, deletes the access-token key of `t`, changes no other key, and
leaves the outcome of `LoadRefresh u` (record and error) as it was;
`RemoveRefresh u` succeeds, deletes the refresh-token key of `u`, changes no
other key, and leaves the outcome of `LoadAccess t` as it was.  That outcome
is never `ErrKeyNotFound`, and it is the stored record and no error when the
key holds access data with clients in its first two levels only.  `t` and `u`
may be the same string. -/
theorem Remove_leaves_the_paired_key (s : Storage) (t u : String) (h : s.FaultFree)
    (ha : s.bucket.docs (accessTokenKeyPrefix ++ t) ≠ none)
    (hu : s.bucket.docs (refreshTokenKeyPrefix ++ u) ≠ none) :
    ((s.RemoveAccess t).1 = none ∧
      ((s.RemoveAccess t).2.LoadRefresh u).1 = (s.LoadRefresh u).1 ∧
      (s.LoadRefresh u).1.2 ≠ some GoError.ErrKeyNotFound ∧
      (∀ p n, s.bucket.docs (refreshTokenKeyPrefix ++ u) = some ⟨Doc.access p, n⟩ →
        p.fitsShell = true → (s.LoadRefresh u).1 = (p, none)) ∧
      (s.RemoveAccess t).2.bucket.docs (accessTokenKeyPrefix ++ t) = none ∧
      (∀ k, k ≠ accessTokenKeyPrefix ++ t →
        (s.RemoveAccess t).2.bucket.docs k = s.bucket.docs k)) ∧
    ((s.RemoveRefresh u).1 = none ∧
      ((s.RemoveRefresh u).2.LoadAccess t).1 = (s.LoadAccess t).1 ∧
      (s.LoadAccess t).1.2 ≠ some GoError.ErrKeyNotFound ∧
      (∀ d n, s.bucket.docs (accessTokenKeyPrefix ++ t) = some ⟨Doc.access d, n⟩ →
        d.fitsShell = true → (s.LoadAccess t).1 = (d, none)) ∧
      (s.RemoveRefresh u).2.bucket.docs (refreshTokenKeyPrefix ++ u) = none ∧
      (∀ k, k ≠ refreshTokenKeyPrefix ++ u →
        (s.RemoveRefresh u).2.bucket.docs k = s.bucket.docs k)) := by
  unfold Storage.FaultFree at h
  have hne := accessKey_ne_refreshKey t u
  have hne2 := refreshKey_ne_accessKey t u
  obtain ⟨ea, hea⟩ := Option.ne_none_iff_exists'.mp ha
  obtain ⟨eu, heu⟩ := Option.ne_none_iff_exists'.mp hu
  refine ⟨⟨?_, ?_, ?_, ?_, ?_, ?_⟩, ⟨?_, ?_, ?_, ?_, ?_, ?_⟩⟩
  · simp [Storage.RemoveAccess, Bucket.Remove, Bucket.nextFault, h, hea]
  · simp [Storage.RemoveAccess, Storage.LoadRefresh, Bucket.Remove, Bucket.Get,
      Bucket.nextFault, Bucket.received, h, hea, heu, hne2]
  · simpa [Storage.LoadRefresh, Bucket.Get, Bucket.nextFault, h, heu]
      using decode_access_not_ErrKeyNotFound eu.doc Storage.accessShell
  · intro p n hdoc hfit
    simp [Storage.LoadRefresh, Bucket.Get, Bucket.nextFault, h, hdoc, Transcodable.decode,
      decodeAccessData_accessShell p hfit]
  · simp [Storage.RemoveAccess, Bucket.Remove, Bucket.nextFault, h, hea]
  · intro k hk
    simp [Storage.RemoveAccess, Bucket.Remove, Bucket.nextFault, h, hea, hk]
  · simp [Storage.RemoveRefresh, Bucket.Remove, Bucket.nextFault, h, heu]
  · simp [Storage.RemoveRefresh, Storage.LoadAccess, Bucket.Remove, Bucket.Get,
      Bucket.nextFault, Bucket.received, h, hea, heu, hne]
  · simpa [Storage.LoadAccess, Bucket.Get, Bucket.nextFault, h, hea]
      using decode_access_not_ErrKeyNotFound ea.doc Storage.accessShell
  · intro d n hdoc hfit
    simp [Storage.LoadAccess, Bucket.Get, Bucket.nextFault, h, hdoc, Transcodable.decode,
      decodeAccessData_accessShell d hfit]
  · simp [Storage.RemoveRefresh, Bucket.Remove, Bucket.nextFault, h, heu]
  · intro k hk
    simp [Storage.RemoveRefresh, Bucket.Remove, Bucket.nextFault, h, heu, hk]

/-- The storage holding the two records of `sameTokens`, whose tokens are the
same string `t`. -/
theorem Remove_leaves_the_paired_key_witness :
    (Storage.empty.SaveAccess sameTokens).2.FaultFree ∧
    (Storage.empty.SaveAccess sameTokens).2.bucket.docs (accessTokenKeyPrefix ++ "t") ≠ none ∧
    (Storage.empty.SaveAccess sameTokens).2.bucket.docs (refreshTokenKeyPrefix ++ "t") ≠ none ∧
    (((Storage.empty.SaveAccess sameTokens).2.RemoveAccess "t").2.LoadRefresh "t").1
      = ((Storage.empty.SaveAccess sameTokens).2.LoadRefresh "t").1 ∧
    (((Storage.empty.SaveAccess sameTokens).2.RemoveRefresh "t").2.LoadAccess "t").1
      = ((Storage.empty.SaveAccess sameTokens).2.LoadAccess "t").1 :=
  have ha : (Storage.empty.SaveAccess sameTokens).2.bucket.docs
      (accessTokenKeyPrefix ++ "t") ≠ none :=
    fun hc => Option.noConfusion ((SaveAccess_docs Storage.empty sameTokens
      { AccessData.zero with AccessToken := "old" } rfl (by decide) rfl).1.symm.trans hc)
  have hu : (Storage.empty.SaveAccess sameTokens).2.bucket.docs
      (refreshTokenKeyPrefix ++ "t") ≠ none :=
    fun hc => Option.noConfusion ((SaveAccess_docs Storage.empty sameTokens
      { AccessData.zero with AccessToken := "old" } rfl (by decide) rfl).2.symm.trans hc)
  let h := Remove_leaves_the_paired_key (Storage.empty.SaveAccess sameTokens).2 "t" "t" rfl
    ha hu
  ⟨rfl, ha, hu, h.1.2.1, h.2.2.1⟩

/-- C5, as stated, fails in the storage that holds the two records of access
data of the fourth generation: both keys are present, the removes succeed,
and `LoadRefresh "r4"` and `LoadAccess "t4"` return the decoder's
`UnmarshalTypeError`, before the remove of the other key and after it; the
loads do not succeed. -/
theorem Loads_fail_with_both_keys_present :
    (Storage.empty.SaveAccess fourthGeneration).2.FaultFree ∧
    ((Storage.empty.SaveAccess fourthGeneration).2.bucket.docs
      (accessTokenKeyPrefix ++ "t4")).isSome = true ∧
    ((Storage.empty.SaveAccess fourthGeneration).2.bucket.docs
      (refreshTokenKeyPrefix ++ "r4")).isSome = true ∧
    ((Storage.empty.SaveAccess fourthGeneration).2.LoadRefresh "r4").1.2
      = some GoError.UnmarshalTypeError ∧
    ((Storage.empty.SaveAccess fourthGeneration).2.RemoveAccess "t4").1 = none ∧
    (((Storage.empty.SaveAccess fourthGeneration).2.RemoveAccess "t4").2.LoadRefresh "r4").1.2
      = some GoError.UnmarshalTypeError ∧
    ((Storage.empty.SaveAccess fourthGeneration).2.LoadAccess "t4").1.2
      = some GoError.UnmarshalTypeError ∧
    ((Storage.empty.SaveAccess fourthGeneration).2.RemoveRefresh "r4").1 = none ∧
    (((Storage.empty.SaveAccess fourthGeneration).2.RemoveRefresh "r4").2.LoadAccess "t4").1.2
      = some GoError.UnmarshalTypeError :=
  ⟨rfl, rfl, rfl, rfl, rfl, rfl, rfl, rfl, rfl⟩

/-! ## Failure of an upsert inside `SaveAccess` -/

/-- C8: for access data `d` with a non-empty refresh token and previous access
data `p`.  If the store serves the first upsert and fails the second with `e`,
`SaveAccess d` returns `e`, both upserts were issued, `d` is stored under the
access-token key, and every other key, the refresh-token key among them, is as
before the call.  If the store fails the first upsert with `e`, `SaveAccess d`
returns `e`, that upsert is the only call issued, and the documents are as
before the call. -/
theorem SaveAccess_no_rollback (s : Storage) (d p : AccessData) (e : GoError)
    (rest : List (Option GoError)) (hr : d.RefreshToken ≠ "") (hp : d.AccessData = some p) :
    (s.bucket.faults = none :: some e :: rest →
      (s.SaveAccess d).1 = some e ∧
      (s.SaveAccess d).2.bucket.log = s.bucket.log ++
        [Call.upsert (accessTokenKeyPrefix ++ d.AccessToken) (Doc.access d)
           (uint32 d.ExpiresIn),
         Call.upsert (refreshTokenKeyPrefix ++ d.RefreshToken) (Doc.access p)
           (uint32 d.ExpiresIn)] ∧
      (s.SaveAccess d).2.bucket.docs (accessTokenKeyPrefix ++ d.AccessToken)
        = some ⟨Doc.access d, uint32 d.ExpiresIn⟩ ∧
      (s.SaveAccess d).2.bucket.docs (refreshTokenKeyPrefix ++ d.RefreshToken)
        = s.bucket.docs (refreshTokenKeyPrefix ++ d.RefreshToken) ∧
      (∀ k, k ≠ accessTokenKeyPrefix ++ d.AccessToken →
        (s.SaveAccess d).2.bucket.docs k = s.bucket.docs k)) ∧
    (s.bucket.faults = some e :: rest →
      (s.SaveAccess d).1 = some e ∧
      (s.SaveAccess d).2.bucket.log = s.bucket.log ++
        [Call.upsert (accessTokenKeyPrefix ++ d.AccessToken) (Doc.access d)
           (uint32 d.ExpiresIn)] ∧
      (s.SaveAccess d).2.bucket.docs = s.bucket.docs) := by
  have hl := length_pos_of_ne_empty _ hr
  have hne := refreshKey_ne_accessKey d.AccessToken d.RefreshToken
  constructor
  · intro hf
    refine ⟨?_, ?_, ?_, ?_, ?_⟩
    · simp [Storage.SaveAccess, Bucket.Upsert, Bucket.nextFault, Bucket.received, hf, hl, hp]
    · simp [Storage.SaveAccess, Bucket.Upsert, Bucket.nextFault, Bucket.received, hf, hl, hp,
        Transcodable.encode]
    · simp [Storage.SaveAccess, Bucket.Upsert, Bucket.nextFault, Bucket.received, hf, hl, hp,
        Transcodable.encode]
    · simp [Storage.SaveAccess, Bucket.Upsert, Bucket.nextFault, Bucket.received, hf, hl, hp,
        hne]
    · intro k hk
      simp [Storage.SaveAccess, Bucket.Upsert, Bucket.nextFault, Bucket.received, hf, hl, hp,
        hk]
  · intro hf
    refine ⟨?_, ?_, ?_⟩ <;>
    simp [Storage.SaveAccess, Bucket.Upsert, Bucket.nextFault, Bucket.received, hf,
      Transcodable.encode]

/-- The access data of the repository's test, saved in a store that fails the
second call, and in one that fails the first. -/
theorem SaveAccess_no_rollback_witness :
    ((failsSecond.SaveAccess accessData).1 = some (GoError.driver "timeout") ∧
      (failsSecond.SaveAccess accessData).2.bucket.docs
          (accessTokenKeyPrefix ++ accessData.AccessToken)
        = some ⟨Doc.access accessData, uint32 accessData.ExpiresIn⟩ ∧
      (failsSecond.SaveAccess accessData).2.bucket.docs
          (refreshTokenKeyPrefix ++ accessData.RefreshToken)
        = failsSecond.bucket.docs (refreshTokenKeyPrefix ++ accessData.RefreshToken)) ∧
    ((failsFirst.SaveAccess accessData).1 = some (GoError.driver "timeout") ∧
      (failsFirst.SaveAccess accessData).2.bucket.docs = failsFirst.bucket.docs) :=
  ⟨let h := (SaveAccess_no_rollback failsSecond accessData refreshData
      (GoError.driver "timeout") [] (by decide) rfl).1 rfl
   ⟨h.1, h.2.2.1, h.2.2.2.1⟩,
   let h := (SaveAccess_no_rollback failsFirst accessData refreshData
      (GoError.driver "timeout") [] (by decide) rfl).2 rfl
   ⟨h.1, h.2.2⟩⟩

/-! ## The expiry passed on a write -/

theorem uint32_emod (x : Int) : ((uint32 x : Nat) : Int) = x % 4294967296 := by
  unfold uint32
  exact Int.toNat_of_nonneg (Int.emod_nonneg x (by decide))

/-- C10, as the code has it.  Whatever the store answers: `SetClient` passes
expiry `0`; `SaveAuthorize a` passes `uint32(a.ExpiresIn)`; every upsert
`SaveAccess d` issues (the access-token one, and the refresh-token one when it
is issued) passes `uint32(d.ExpiresIn)`, the outer value.  For an `int32`
value `x`, `uint32(x)` is `x` reduced modulo `2^32`: `x` itself when
`0 ≤ x`, and `x + 2^32` when `x < 0`. -/
theorem expiry_passed_on_writes (s : Storage) :
    (∀ c : DefaultClient,
      (s.SetClient c).2.bucket.log = s.bucket.log ++ [Call.upsert c.GetId (Doc.client c) 0]) ∧
    (∀ a : AuthorizeData,
      (s.SaveAuthorize a).2.bucket.log
        = s.bucket.log ++ [Call.upsert a.Code (Doc.authorize a) (uint32 a.ExpiresIn)]) ∧
    (∀ d : AccessData, ∃ calls : List Call,
      (s.SaveAccess d).2.bucket.log = s.bucket.log ++ calls ∧
      ∀ c ∈ calls,
        c = Call.upsert (accessTokenKeyPrefix ++ d.AccessToken) (Doc.access d)
              (uint32 d.ExpiresIn) ∨
        ∃ p, d.AccessData = some p ∧
          c = Call.upsert (refreshTokenKeyPrefix ++ d.RefreshToken) (Doc.access p)
                (uint32 d.ExpiresIn)) ∧
    (∀ d p : AccessData, s.bucket.nextFault = none → d.RefreshToken ≠ "" →
      d.AccessData = some p →
      (s.SaveAccess d).2.bucket.log = s.bucket.log ++
        [Call.upsert (accessTokenKeyPrefix ++ d.AccessToken) (Doc.access d)
           (uint32 d.ExpiresIn),
         Call.upsert (refreshTokenKeyPrefix ++ d.RefreshToken) (Doc.access p)
           (uint32 d.ExpiresIn)]) ∧
    (∀ x : Int, ((uint32 x : Nat) : Int) = x % 4294967296) ∧
    (∀ x : Int, isInt32 x → 0 ≤ x → ((uint32 x : Nat) : Int) = x) ∧
    (∀ x : Int, isInt32 x → x < 0 → ((uint32 x : Nat) : Int) = x + 4294967296) := by
  refine ⟨?_, ?_, ?_, ?_, uint32_emod, ?_, ?_⟩
  · intro c
    cases hf : s.bucket.nextFault <;>
    simp [Storage.SetClient, Bucket.Upsert, Bucket.received, hf, Transcodable.encode]
  · intro a
    cases hf : s.bucket.nextFault <;>
    simp [Storage.SaveAuthorize, Bucket.Upsert, Bucket.received, hf, Transcodable.encode]
  · intro d
    cases hf : s.bucket.nextFault with
    | some e =>
      refine ⟨[Call.upsert (accessTokenKeyPrefix ++ d.AccessToken) (Doc.access d)
        (uint32 d.ExpiresIn)], ?_, ?_⟩
      · simp [Storage.SaveAccess, Bucket.Upsert, Bucket.received, hf, Transcodable.encode]
      · intro c hc
        left
        simpa using hc
    | none =>
      by_cases hl : d.RefreshToken.length > 0
      · cases hp : d.AccessData with
        | none =>
          refine ⟨[Call.upsert (accessTokenKeyPrefix ++ d.AccessToken) (Doc.access d)
            (uint32 d.ExpiresIn)], ?_, ?_⟩
          · simp [Storage.SaveAccess, Bucket.Upsert, Bucket.received, hf, hl, hp,
              Transcodable.encode]
          · intro c hc
            left
            simpa using hc
        | some p =>
          refine ⟨[Call.upsert (accessTokenKeyPrefix ++ d.AccessToken) (Doc.access d)
              (uint32 d.ExpiresIn),
            Call.upsert (refreshTokenKeyPrefix ++ d.RefreshToken) (Doc.access p)
              (uint32 d.ExpiresIn)], ?_, ?_⟩
          · cases hf2 : Bucket.nextFault
                { docs := fun k => if k = accessTokenKeyPrefix ++ d.AccessToken then
                    some ⟨Doc.access d, uint32 d.ExpiresIn⟩ else s.bucket.docs k,
                  faults := s.bucket.faults.tail,
                  log := s.bucket.log ++ [Call.upsert (accessTokenKeyPrefix ++ d.AccessToken)
                    (Doc.access d) (uint32 d.ExpiresIn)] } <;>
            simp [Storage.SaveAccess, Bucket.Upsert, Bucket.received, hf, hl, hp,
              Transcodable.encode, hf2]
          · intro c hc
            simp at hc
            rcases hc with hc | hc
            · exact Or.inl hc
            · exact Or.inr ⟨p, rfl, hc⟩
      · refine ⟨[Call.upsert (accessTokenKeyPrefix ++ d.AccessToken) (Doc.access d)
          (uint32 d.ExpiresIn)], ?_, ?_⟩
        · simp [Storage.SaveAccess, Bucket.Upsert, Bucket.received, hf, hl,
            Transcodable.encode]
        · intro c hc
          left
          simpa using hc
  · intro d p hf hr hp
    have hl := length_pos_of_ne_empty _ hr
    cases hf2 : Bucket.nextFault
        { docs := fun k => if k = accessTokenKeyPrefix ++ d.AccessToken then
            some ⟨Doc.access d, uint32 d.ExpiresIn⟩ else s.bucket.docs k,
          faults := s.bucket.faults.tail,
          log := s.bucket.log ++ [Call.upsert (accessTokenKeyPrefix ++ d.AccessToken)
            (Doc.access d) (uint32 d.ExpiresIn)] } <;>
    simp [Storage.SaveAccess, Bucket.Upsert, Bucket.received, hf, hl, hp,
      Transcodable.encode, hf2]
  · intro x hx h0
    rw [uint32_emod]
    unfold isInt32 at hx
    omega
  · intro x hx h0
    rw [uint32_emod]
    unfold isInt32 at hx
    omega

/-- The authorize data of the repository's test: the expiry passed is its
`ExpiresIn`, 1000. -/
theorem expiry_passed_on_writes_witness :
    isInt32 authorizeData.ExpiresIn ∧ 0 ≤ authorizeData.ExpiresIn ∧
    ((uint32 authorizeData.ExpiresIn : Nat) : Int) = authorizeData.ExpiresIn ∧
    (Storage.empty.SaveAuthorize authorizeData).2.bucket.log
      = [] ++ [Call.upsert authorizeData.Code (Doc.authorize authorizeData)
                (uint32 authorizeData.ExpiresIn)] :=
  let h := expiry_passed_on_writes Storage.empty
  ⟨by decide, by decide, h.2.2.2.2.2.1 authorizeData.ExpiresIn (by decide) (by decide),
   h.2.1 authorizeData⟩

/-- C10, as stated, fails at `ExpiresIn = -1`, a value of the `int32` field:
`SaveAuthorize` passes the expiry `4294967295`, which is not `-1`. -/
theorem expiry_of_negative_ExpiresIn :
    isInt32 negativeExpiry.ExpiresIn ∧
    (Storage.empty.SaveAuthorize negativeExpiry).2.bucket.log
      = [Call.upsert "c" (Doc.authorize negativeExpiry) 4294967295] ∧
    ((4294967295 : Nat) : Int) ≠ negativeExpiry.ExpiresIn :=
  ⟨by decide, rfl, by decide⟩

/-! ## Keys that were never written -/

theorem Upsert_docs_of_ne {α : Type} [Transcodable α] (b : Bucket) (key k : String) (v : α)
    (n : Nat) (hk : k ≠ key) : (b.Upsert key v n).2.docs k = b.docs k := by
  unfold Bucket.Upsert
  cases b.nextFault <;> simp [Bucket.received, hk]

theorem Upsert_faults {α : Type} [Transcodable α] (b : Bucket) (key : String) (v : α)
    (n : Nat) : (b.Upsert key v n).2.faults = b.faults.tail := by
  unfold Bucket.Upsert
  cases b.nextFault <;> simp [Bucket.received]

theorem Get_docs {α : Type} [Transcodable α] (b : Bucket) (key : String) (v : α) :
    (b.Get key v).2.docs = b.docs := by
  unfold Bucket.Get
  cases b.nextFault with
  | some e => rfl
  | none => cases b.docs key <;> rfl

theorem Get_faults {α : Type} [Transcodable α] (b : Bucket) (key : String) (v : α) :
    (b.Get key v).2.faults = b.faults.tail := by
  unfold Bucket.Get
  cases b.nextFault with
  | some e => rfl
  | none => cases b.docs key <;> rfl

theorem Remove_docs_none (b : Bucket) (key k : String) (n : Nat) (h : b.docs k = none) :
    (b.Remove key n).2.docs k = none := by
  unfold Bucket.Remove
  cases b.nextFault with
  | some e => exact h
  | none =>
    cases b.docs key with
    | none => exact h
    | some entry =>
      by_cases hk : k = key <;> simp [Bucket.received, hk, h]

theorem Remove_faults (b : Bucket) (key : String) (n : Nat) :
    (b.Remove key n).2.faults = b.faults.tail := by
  unfold Bucket.Remove
  cases b.nextFault with
  | some e => rfl
  | none => cases b.docs key <;> rfl

theorem SaveAccess_docs_none (s : Storage) (d : AccessData) (k : String)
    (hk : k ∉ (Op.SaveAccess d).writes) (h : s.bucket.docs k = none) :
    (s.SaveAccess d).2.bucket.docs k = none := by
  simp only [Op.writes, List.mem_cons, not_or] at hk
  obtain ⟨hka, hkr⟩ := hk
  have h1 := Upsert_docs_of_ne s.bucket (accessTokenKeyPrefix ++ d.AccessToken) k d
    (uint32 d.ExpiresIn) hka
  unfold Storage.SaveAccess
  simp only
  cases he : (s.bucket.Upsert (accessTokenKeyPrefix ++ d.AccessToken) d (uint32 d.ExpiresIn)).1 with
  | some e => simp [h1, h]
  | none =>
    by_cases hl : d.RefreshToken.length > 0
    · cases hp : d.AccessData with
      | none => simp [hl, h1, h]
      | some p =>
        have hkr2 : k ≠ refreshTokenKeyPrefix ++ d.RefreshToken := by
          simpa [hl, hp] using hkr
        have h2 := Upsert_docs_of_ne
          (s.bucket.Upsert (accessTokenKeyPrefix ++ d.AccessToken) d (uint32 d.ExpiresIn)).2
          (refreshTokenKeyPrefix ++ d.RefreshToken) k p (uint32 d.ExpiresIn) hkr2
        simp only [hl, if_true]
        split <;> simp [h2, h1, h]
    · simp [hl, h1, h]

theorem SaveAccess_faultFree_preserved (s : Storage) (d : AccessData) (h : s.FaultFree) :
    (s.SaveAccess d).2.FaultFree := by
  unfold Storage.FaultFree at *
  unfold Storage.SaveAccess
  simp only
  have h1 := Upsert_faults s.bucket (accessTokenKeyPrefix ++ d.AccessToken) d (uint32 d.ExpiresIn)
  rw [h] at h1
  split
  · simpa using h1
  · split
    · split
      · rename_i p _
        have h2 := Upsert_faults
          (s.bucket.Upsert (accessTokenKeyPrefix ++ d.AccessToken) d (uint32 d.ExpiresIn)).2
          (refreshTokenKeyPrefix ++ d.RefreshToken) p (uint32 d.ExpiresIn)
        rw [h1] at h2
        split <;> simpa using h2
      · simpa using h1
    · simpa using h1

theorem apply_docs_none (s : Storage) (op : Op) (k : String) (hk : k ∉ op.writes)
    (h : s.bucket.docs k = none) : (s.apply op).bucket.docs k = none := by
  cases op with
  | SetClient c =>
    have hk2 : k ≠ c.GetId := by simpa [Op.writes] using hk
    simp [Storage.apply, Storage.SetClient, Upsert_docs_of_ne _ _ _ _ _ hk2, h]
  | SaveAuthorize a =>
    have hk2 : k ≠ a.Code := by simpa [Op.writes] using hk
    simp [Storage.apply, Storage.SaveAuthorize, Upsert_docs_of_ne _ _ _ _ _ hk2, h]
  | SaveAccess d => exact SaveAccess_docs_none s d k hk h
  | GetClient id => simp [Storage.apply, Storage.GetClient, Get_docs, h]
  | LoadAuthorize c => simp [Storage.apply, Storage.LoadAuthorize, Get_docs, h]
  | LoadAccess t => simp [Storage.apply, Storage.LoadAccess, Get_docs, h]
  | LoadRefresh t => simp [Storage.apply, Storage.LoadRefresh, Get_docs, h]
  | RemoveAuthorize c => exact Remove_docs_none _ _ _ _ h
  | RemoveAccess t => exact Remove_docs_none _ _ _ _ h
  | RemoveRefresh t => exact Remove_docs_none _ _ _ _ h

theorem apply_faultFree (s : Storage) (op : Op) (h : s.FaultFree) : (s.apply op).FaultFree := by
  cases op with
  | SaveAccess d => exact SaveAccess_faultFree_preserved s d h
  | SetClient c => unfold Storage.FaultFree at *; simp [Storage.apply, Storage.SetClient, Upsert_faults, h]
  | SaveAuthorize a => unfold Storage.FaultFree at *; simp [Storage.apply, Storage.SaveAuthorize, Upsert_faults, h]
  | GetClient id => unfold Storage.FaultFree at *; simp [Storage.apply, Storage.GetClient, Get_faults, h]
  | LoadAuthorize c => unfold Storage.FaultFree at *; simp [Storage.apply, Storage.LoadAuthorize, Get_faults, h]
  | LoadAccess t => unfold Storage.FaultFree at *; simp [Storage.apply, Storage.LoadAccess, Get_faults, h]
  | LoadRefresh t => unfold Storage.FaultFree at *; simp [Storage.apply, Storage.LoadRefresh, Get_faults, h]
  | RemoveAuthorize c => unfold Storage.FaultFree at *; simp [Storage.apply, Storage.RemoveAuthorize, Remove_faults, h]
  | RemoveAccess t => unfold Storage.FaultFree at *; simp [Storage.apply, Storage.RemoveAccess, Remove_faults, h]
  | RemoveRefresh t => unfold Storage.FaultFree at *; simp [Storage.apply, Storage.RemoveRefresh, Remove_faults, h]

theorem run_docs_none (ops : List Op) (s : Storage) (k : String) (hk : k ∉ keysWritten ops)
    (h : s.bucket.docs k = none) : (s.run ops).bucket.docs k = none := by
  induction ops generalizing s with
  | nil => exact h
  | cons op ops ih =>
    simp only [keysWritten, List.mem_append, not_or] at hk
    exact ih (s.apply op) hk.2 (apply_docs_none s op k hk.1 h)

theorem run_faultFree (ops : List Op) (s : Storage) (h : s.FaultFree) :
    (s.run ops).FaultFree := by
  induction ops generalizing s with
  | nil => exact h
  | cons op ops ih => exact ih (s.apply op) (apply_faultFree s op h)


theorem append_left_cancel (pre x y : String) (h : pre ++ x = pre ++ y) : x = y := by
  have hd := congrArg String.data h
  simp only [String.data_append] at hd
  exact String.ext (List.append_cancel_left hd)

/-- A key written by a sequence of calls is a client identifier passed to
`SetClient`, a code passed to `SaveAuthorize`, or the prefixed access or
refresh token of access data passed to `SaveAccess`. -/
theorem mem_keysWritten (ops : List Op) (k : String) (hk : k ∈ keysWritten ops) :
    (∃ c, Op.SetClient c ∈ ops ∧ c.GetId = k) ∨
    (∃ a, Op.SaveAuthorize a ∈ ops ∧ a.Code = k) ∨
    (∃ d, Op.SaveAccess d ∈ ops ∧
      (accessTokenKeyPrefix ++ d.AccessToken = k ∨
        refreshTokenKeyPrefix ++ d.RefreshToken = k)) := by
  induction ops with
  | nil => simp [keysWritten] at hk
  | cons op ops ih =>
    simp only [keysWritten, List.mem_append] at hk
    rcases hk with hk | hk
    · cases op with
      | SetClient c =>
        simp only [Op.writes, List.mem_singleton] at hk
        exact Or.inl ⟨c, List.mem_cons_self _ _, hk.symm⟩
      | SaveAuthorize a =>
        simp only [Op.writes, List.mem_singleton] at hk
        exact Or.inr (Or.inl ⟨a, List.mem_cons_self _ _, hk.symm⟩)
      | SaveAccess d =>
        simp only [Op.writes, List.mem_cons] at hk
        rcases hk with hk | hk
        · exact Or.inr (Or.inr ⟨d, List.mem_cons_self _ _, Or.inl hk.symm⟩)
        · split at hk
          · simp only [List.mem_singleton] at hk
            exact Or.inr (Or.inr ⟨d, List.mem_cons_self _ _, Or.inr hk.symm⟩)
          · simp at hk
      | GetClient _ => simp [Op.writes] at hk
      | LoadAuthorize _ => simp [Op.writes] at hk
      | RemoveAuthorize _ => simp [Op.writes] at hk
      | LoadAccess _ => simp [Op.writes] at hk
      | RemoveAccess _ => simp [Op.writes] at hk
      | LoadRefresh _ => simp [Op.writes] at hk
      | RemoveRefresh _ => simp [Op.writes] at hk
    · rcases ih hk with ⟨c, hc, e⟩ | ⟨a, ha, e⟩ | ⟨d, hd, e⟩
      · exact Or.inl ⟨c, List.mem_cons_of_mem _ hc, e⟩
      · exact Or.inr (Or.inl ⟨a, List.mem_cons_of_mem _ ha, e⟩)
      · exact Or.inr (Or.inr ⟨d, List.mem_cons_of_mem _ hd, e⟩)

/-- A read of a key no call has written, after any sequence of calls on the
empty storage, finds no document and is served. -/
theorem run_empty_unwritten (ops : List Op) (k : String) (hk : k ∉ keysWritten ops) :
    (Storage.empty.run ops).bucket.docs k = none ∧
    (Storage.empty.run ops).bucket.nextFault = none := by
  refine ⟨run_docs_none ops Storage.empty k hk rfl, ?_⟩
  have hf := run_faultFree ops Storage.empty rfl
  unfold Storage.FaultFree at hf
  simp [Bucket.nextFault, hf]

/-- C6, as the code has it.  After any sequence of adapter calls on the empty
storage, for every string `k`:
`GetClient k` and `LoadAuthorize k` fail with `ErrKeyNotFound`, returning the
empty record they allocated, if no call wrote the key `k`: no `SetClient` with
identifier `k`, no `SaveAuthorize` with code `k`, and no `SaveAccess` whose
prefixed access or refresh token is `k`;
`LoadAccess k` fails with `ErrKeyNotFound` if `k` was never stored as an access
token by `SaveAccess` and no client identifier or code is the prefixed key
`a_k` (refresh tokens play no part);
`LoadRefresh k` fails with `ErrKeyNotFound` if `k` was never stored as a
refresh token by `SaveAccess` and no client identifier or code is the prefixed
key `r_k` (access tokens play no part). -/
theorem load_of_unwritten_key_not_found (ops : List Op) (k : String) :
    ((∀ c, Op.SetClient c ∈ ops → c.GetId ≠ k) →
     (∀ a, Op.SaveAuthorize a ∈ ops → a.Code ≠ k) →
     (∀ d, Op.SaveAccess d ∈ ops →
        accessTokenKeyPrefix ++ d.AccessToken ≠ k ∧
        refreshTokenKeyPrefix ++ d.RefreshToken ≠ k) →
      ((Storage.empty.run ops).GetClient k).1
        = (DefaultClient.zero, some GoError.ErrKeyNotFound) ∧
      ((Storage.empty.run ops).LoadAuthorize k).1
        = ({ AuthorizeData.zero with Client := some DefaultClient.zero },
           some GoError.ErrKeyNotFound)) ∧
    ((∀ d, Op.SaveAccess d ∈ ops → d.AccessToken ≠ k) →
     (∀ c, Op.SetClient c ∈ ops → c.GetId ≠ accessTokenKeyPrefix ++ k) →
     (∀ a, Op.SaveAuthorize a ∈ ops → a.Code ≠ accessTokenKeyPrefix ++ k) →
      ((Storage.empty.run ops).LoadAccess k).1
        = (Storage.accessShell, some GoError.ErrKeyNotFound)) ∧
    ((∀ d, Op.SaveAccess d ∈ ops → d.RefreshToken ≠ k) →
     (∀ c, Op.SetClient c ∈ ops → c.GetId ≠ refreshTokenKeyPrefix ++ k) →
     (∀ a, Op.SaveAuthorize a ∈ ops → a.Code ≠ refreshTokenKeyPrefix ++ k) →
      ((Storage.empty.run ops).LoadRefresh k).1
        = (Storage.accessShell, some GoError.ErrKeyNotFound)) := by
  refine ⟨?_, ?_, ?_⟩
  · intro hc ha hd
    have hk : k ∉ keysWritten ops := by
      intro hmem
      rcases mem_keysWritten ops k hmem with ⟨c, hin, e⟩ | ⟨a, hin, e⟩ | ⟨d, hin, e | e⟩
      · exact hc c hin e
      · exact ha a hin e
      · exact (hd d hin).1 e
      · exact (hd d hin).2 e
    obtain ⟨h1, h2⟩ := run_empty_unwritten ops k hk
    constructor
    · simp [Storage.GetClient, Bucket.Get, h1, h2]
    · simp [Storage.LoadAuthorize, Bucket.Get, h1, h2]
  · intro hd hc ha
    have hk : accessTokenKeyPrefix ++ k ∉ keysWritten ops := by
      intro hmem
      rcases mem_keysWritten ops _ hmem with ⟨c, hin, e⟩ | ⟨a, hin, e⟩ | ⟨d, hin, e | e⟩
      · exact hc c hin e
      · exact ha a hin e
      · exact hd d hin (append_left_cancel _ _ _ e)
      · exact refreshKey_ne_accessKey _ _ e
    obtain ⟨h1, h2⟩ := run_empty_unwritten ops _ hk
    simp [Storage.LoadAccess, Bucket.Get, h1, h2]
  · intro hd hc ha
    have hk : refreshTokenKeyPrefix ++ k ∉ keysWritten ops := by
      intro hmem
      rcases mem_keysWritten ops _ hmem with ⟨c, hin, e⟩ | ⟨a, hin, e⟩ | ⟨d, hin, e | e⟩
      · exact hc c hin e
      · exact ha a hin e
      · exact accessKey_ne_refreshKey _ _ e
      · exact hd d hin (append_left_cancel _ _ _ e)
    obtain ⟨h1, h2⟩ := run_empty_unwritten ops _ hk
    simp [Storage.LoadRefresh, Bucket.Get, h1, h2]

/-- After the client and the access data of the repository's tests are
stored, the access token is not a refresh token and the code `foo` is not a
client. -/
theorem load_of_unwritten_key_not_found_witness :
    ((Storage.empty.run [Op.SetClient clientData, Op.SaveAccess accessData]).LoadRefresh
        "footookeeen").1.2 = some GoError.ErrKeyNotFound ∧
    ((Storage.empty.run [Op.SetClient clientData, Op.SaveAccess accessData]).GetClient
        "foo").1.2 = some GoError.ErrKeyNotFound :=
  ⟨congrArg Prod.snd
    ((load_of_unwritten_key_not_found
        [Op.SetClient clientData, Op.SaveAccess accessData] "footookeeen").2.2
      (by intro d hd
          simp at hd
          subst hd
          decide)
      (by intro c hc
          simp at hc
          subst hc
          decide)
      (by intro a ha
          simp at ha)),
   congrArg Prod.snd
    ((load_of_unwritten_key_not_found
        [Op.SetClient clientData, Op.SaveAccess accessData] "foo").1
      (by intro c hc
          simp at hc
          subst hc
          decide)
      (by intro a ha
          simp at ha)
      (by intro d hd
          simp at hd
          subst hd
          decide)).1⟩

/-- C6, as stated, fails.  After `SaveAuthorize` of the code `foo` alone, no
client was ever stored, yet `GetClient "foo"` returns no error and a client
made of the authorize data's redirect URI and user data.  After `SetClient` of
a client whose identifier is `a_tok` alone, no access token was ever stored,
yet `LoadAccess "tok"` returns no error. -/
theorem load_of_never_stored_key_succeeds :
    (∀ c, Op.SetClient c ∈ [Op.SaveAuthorize authorizeData] → c.GetId ≠ "foo") ∧
    ((Storage.empty.run [Op.SaveAuthorize authorizeData]).GetClient "foo").1
      = ({ Id := "", Secret := "", RedirectUri := "http://redirect.me",
           UserData := some "foodata" }, none) ∧
    (∀ d, Op.SaveAccess d ∈ [Op.SetClient prefixedClient] → d.AccessToken ≠ "tok") ∧
    ((Storage.empty.run [Op.SetClient prefixedClient]).LoadAccess "tok").1.2 = none := by
  refine ⟨?_, ?_, ?_, ?_⟩
  · intro c hc
    simp at hc
  · rfl
  · intro d hd
    simp at hd
  · rfl

end OsinCouchbase
